import Mathlib

set_option maxRecDepth 8192

/-!
Verification of the a2a-cronos-x402 TypeScript SDK core.

This file gives a shallow embedding, in Lean 4, of the parts of the
repository that carry real invariants:

* `src/shared/hook-data-codec.ts` — the `HookDataCodec` class
  (`encode` / `decode` / `validate` per hook variant);
* the `X402Client` (`validateSignature`, `submitTransaction`,
  `prepareTransaction`, amount parsing via ethers `parseUnits`);
* the `X402Server` (`addService`, `getService`, `listServices`) together
  with `ContractReader.getSettlementRouter` and the network registry.

Modelling conventions:

* Ethereum addresses are modelled by their 160-bit numeric value
  (`Nat`).  The hex-string rendering performed by the external `ethers`
  library (parsing on encode, EIP-55 checksummed printing on decode) is
  value-preserving, so address well-formedness becomes the bound
  `a < 2 ^ 160`.
* ABI payloads are modelled at the level of 32-byte words: a payload is
  a `List Nat` of word values, with the empty JS payloads `'0x'` and
  `''` both corresponding to the empty list.  All types appearing in
  the two schemas used by the codec (`tuple(address)` and
  `tuple(address recipient, uint16 bips)[]`) are word-aligned, so this
  loses nothing.
* Asynchronous ledger reads are modelled as explicit oracle functions
  passed to the operation; effects are made visible by returning the
  list of ledger interactions performed.  Fallible code returns
  `Except`.
* The JS `Map` backing the service registry is modelled as an
  insertion-ordered association list, matching the ECMAScript
  guarantee that `Map.set` on an existing key updates the entry in
  place and `Map.values()` iterates in insertion order.
-/

/-- A split entry of the `transfer-split` hook data
(`{ recipient: string; bips: number }` in `shared/types.ts`); the
recipient address is modelled by its numeric value. -/
structure Split where
  recipient : Nat
  bips : Nat
deriving Repr, DecidableEq

/-- The tagged union `HookDataParams` of `shared/types.ts`: one
constructor per hook variant, the `type` tag being the constructor.
`transferSplit` keeps the optional (`splits?`) sequence as an
`Option`. -/
inductive HookDataParams where
  | nftMint (nftContract : Nat)
  | rewardPoints (rewardToken : Nat)
  | transferSplit (splits : Option (List Split))
deriving Repr, DecidableEq

/-- An ABI payload, as a list of 32-byte word values.  The JS strings
`'0x'` and `''` are both the empty payload `[]`. -/
abbrev Payload := List Nat

/-- `ethers.isAddress` at value level: an address is well-formed iff its
value fits in 160 bits. -/
def isAddressV (a : Nat) : Bool :=
  decide (a < 2 ^ 160)

/-- Word bounds checked by the ethers ABI coder when encoding one
`tuple(address recipient, uint16 bips)` element (out-of-range values
make `abiCoder.encode` throw). -/
def splitOk (s : Split) : Bool :=
  isAddressV s.recipient && decide (s.bips < 2 ^ 16)

/-- Word sequence produced for one split element: the static tuple
`(address recipient, uint16 bips)` is two words. -/
def encodeSplits : List Split → List Nat
  | [] => []
  | s :: rest => s.recipient :: s.bips :: encodeSplits rest

/-- Inverse of `encodeSplits`: read consecutive `(recipient, bips)`
word pairs, enforcing the per-type range checks the ethers ABI decoder
performs (`address` must fit 160 bits, `uint16` must fit 16 bits). -/
def decodeSplits : List Nat → Option (List Split)
  | [] => some []
  | r :: b :: rest =>
    if isAddressV r && decide (b < 2 ^ 16) then
      (decodeSplits rest).map (fun l => ⟨r, b⟩ :: l)
    else
      none
  | _ => none

/-- The hook-type tag carried by a `HookDataParams` value (its `type`
field in the source). -/
def kindOf : HookDataParams → String
  | .nftMint _ => "nft-mint"
  | .rewardPoints _ => "reward-points"
  | .transferSplit _ => "transfer-split"

/-- `HookDataCodec.encode` (`shared/hook-data-codec.ts`, lines 20-47).
The `switch` on `hookType` becomes the `if` cascade; the unchecked TS
casts (`params as NFTMintHookData` etc.) become the catch-all match
arms: reading a field the value does not have yields `undefined`, which
makes `abiCoder.encode` throw for the address cases and takes the
`!data.splits` early return for `transfer-split`.

Word layout, following standard ABI encoding as performed by
`ethers.AbiCoder`: `tuple(address)` is a single word; the top-level
dynamic array `tuple(address,uint16)[]` is a head offset word (32),
the length word, then two words per element. -/
def encode (hookType : String) (params : HookDataParams) : Except String Payload :=
  if hookType = "nft-mint" then
    match params with
    | .nftMint a => if isAddressV a then .ok [a] else .error "invalid address"
    | _ => .error "invalid address"
  else if hookType = "reward-points" then
    match params with
    | .rewardPoints t => if isAddressV t then .ok [t] else .error "invalid address"
    | _ => .error "invalid address"
  else if hookType = "transfer-split" then
    match params with
    | .transferSplit none => .ok []
    | .transferSplit (some splits) =>
      if splits.length = 0 then .ok []
      else if splits.all splitOk then .ok (32 :: splits.length :: encodeSplits splits)
      else .error "value out-of-bounds"
    | _ => .ok []
  else .error ("Unknown hook type: " ++ hookType)

/-- `HookDataCodec.decode` (`shared/hook-data-codec.ts`, lines 52-97).
The explicit empty-payload checks (`hookData === '0x' || hookData ===
''`) are the `[]` cases.  Non-empty payloads go through the ABI
decoder, modelled here as the exact inverse of the word layouts of
`encode` (a payload that does not have the expected shape is an ethers
decode error). -/
def decode (hookType : String) (payload : Payload) : Except String HookDataParams :=
  if hookType = "nft-mint" then
    match payload with
    | [] => .error "NFT mint hookData cannot be empty"
    | [w] => if isAddressV w then .ok (.nftMint w) else .error "abi decode failed"
    | _ => .error "abi decode failed"
  else if hookType = "reward-points" then
    match payload with
    | [] => .error "Reward points hookData cannot be empty"
    | [w] => if isAddressV w then .ok (.rewardPoints w) else .error "abi decode failed"
    | _ => .error "abi decode failed"
  else if hookType = "transfer-split" then
    match payload with
    | [] => .ok (.transferSplit none)
    | off :: n :: rest =>
      if off = 32 ∧ rest.length = 2 * n then
        match decodeSplits rest with
        | some l => .ok (.transferSplit (some l))
        | none => .error "abi decode failed"
      else .error "abi decode failed"
    | _ => .error "abi decode failed"
  else .error ("Unknown hook type: " ++ hookType)

/-- `HookDataCodec.validate` (`shared/hook-data-codec.ts`, lines
135-154).  `!params.splits || params.splits.length === 0` is the
`none` / length-0 cases; `every` becomes `List.all` and the `reduce`
sum becomes `List.foldl`. -/
def validate (params : HookDataParams) : Bool :=
  match params with
  | .nftMint a => isAddressV a
  | .rewardPoints t => isAddressV t
  | .transferSplit none => true
  | .transferSplit (some splits) =>
    if splits.length = 0 then true
    else
      splits.all (fun s => isAddressV s.recipient) &&
        (splits.foldl (fun sum s => sum + s.bips) 0 == 10000)

/-- Canonical form after an encode/decode round trip: the one
asymmetry of the codec maps an explicit empty split sequence to the
absent (`undefined`) splits that `decode` produces for the empty
payload; every other value is unchanged. -/
def canonicalParams : HookDataParams → HookDataParams
  | .transferSplit (some []) => .transferSplit none
  | p => p

example : encode "nft-mint" (.nftMint 5) = .ok [5] := by rfl
example : decode "nft-mint" [5] = .ok (.nftMint 5) := by rfl
example : encode "transfer-split" (.transferSplit (some [⟨3, 4000⟩, ⟨9, 6000⟩])) =
    .ok [32, 2, 3, 4000, 9, 6000] := by rfl
example : decode "transfer-split" [32, 2, 3, 4000, 9, 6000] =
    .ok (.transferSplit (some [⟨3, 4000⟩, ⟨9, 6000⟩])) := by rfl
example : validate (.transferSplit (some [⟨3, 5000⟩, ⟨9, 4999⟩])) = false := by decide
example : validate (.transferSplit (some [⟨3, 5000⟩, ⟨9, 5000⟩])) = true := by decide

/-- Sum of the `bips` fields of a split list (the value computed by the
`reduce` in `validate`). -/
def sumBips : List Split → Nat
  | [] => 0
  | s :: rest => s.bips + sumBips rest

theorem foldl_bips (l : List Split) (n : Nat) :
    l.foldl (fun sum s => sum + s.bips) n = n + sumBips l := by
  induction l generalizing n with
  | nil => simp [sumBips]
  | cons s rest ih => simp only [List.foldl, sumBips, ih]; omega

theorem sumBips_eq_sum_map (l : List Split) :
    sumBips l = (l.map Split.bips).sum := by
  induction l with
  | nil => rfl
  | cons s rest ih => simp [sumBips, ih]

theorem bips_le_sumBips {l : List Split} {s : Split} (h : s ∈ l) :
    s.bips ≤ sumBips l := by
  induction l with
  | nil => cases h
  | cons t rest ih =>
    rcases List.mem_cons.mp h with rfl | h'
    · simp [sumBips]
    · have := ih h'
      simp only [sumBips]
      omega

theorem length_encodeSplits (l : List Split) :
    (encodeSplits l).length = 2 * l.length := by
  induction l with
  | nil => rfl
  | cons s rest ih => simp [encodeSplits, ih]; omega

theorem decodeSplits_encodeSplits {l : List Split}
    (h : ∀ s ∈ l, splitOk s = true) :
    decodeSplits (encodeSplits l) = some l := by
  induction l with
  | nil => rfl
  | cons s rest ih =>
    have hs : splitOk s = true := h s (by simp)
    have hr := ih (fun t ht => h t (by simp [ht]))
    simp only [splitOk, Bool.and_eq_true, decide_eq_true_eq] at hs
    show decodeSplits (s.recipient :: s.bips :: encodeSplits rest) = some (s :: rest)
    have hb : s.bips < 65536 := hs.2
    simp [decodeSplits, hs.1, hb, hr]

/-- **C1.** Codec round trip: for every hook variant and every valid
parameter value `p`, encoding with the variant's own kind succeeds and
decoding the produced payload yields `p` back — with the single
exception that a `TransferSplit` whose splits are absent or an empty
sequence encodes to the empty payload and decodes back to absent
(`canonicalParams` is the identity on every value except
`transferSplit (some [])`, which it sends to `transferSplit none`, as
the second conjunct states). -/
theorem hookCodec_roundtrip_valid (p : HookDataParams) (hv : validate p = true) :
    (∃ payload, encode (kindOf p) p = .ok payload ∧
        decode (kindOf p) payload = .ok (canonicalParams p)) ∧
    (canonicalParams p = p ↔ p ≠ .transferSplit (some [])) := by
  cases p with
  | nftMint a =>
    have hv' : isAddressV a = true := hv
    have he : encode (kindOf (.nftMint a)) (.nftMint a) =
        (if isAddressV a then .ok [a] else .error "invalid address") := rfl
    have hd : decode (kindOf (.nftMint a)) [a] =
        (if isAddressV a then .ok (.nftMint a) else .error "abi decode failed") := rfl
    refine ⟨⟨[a], ?_, ?_⟩, by simp [canonicalParams]⟩
    · rw [he, if_pos hv']
    · rw [hd, if_pos hv']; rfl
  | rewardPoints t =>
    have hv' : isAddressV t = true := hv
    have he : encode (kindOf (.rewardPoints t)) (.rewardPoints t) =
        (if isAddressV t then .ok [t] else .error "invalid address") := rfl
    have hd : decode (kindOf (.rewardPoints t)) [t] =
        (if isAddressV t then .ok (.rewardPoints t) else .error "abi decode failed") := rfl
    refine ⟨⟨[t], ?_, ?_⟩, by simp [canonicalParams]⟩
    · rw [he, if_pos hv']
    · rw [hd, if_pos hv']; rfl
  | transferSplit splits =>
    match splits with
    | none =>
      exact ⟨⟨[], rfl, rfl⟩, by simp [canonicalParams]⟩
    | some [] =>
      refine ⟨⟨[], rfl, rfl⟩, ?_⟩
      constructor
      · intro h
        exact absurd h (by simp [canonicalParams])
      · intro h
        exact absurd rfl h
    | some (s :: rest) =>
      have hv' : ((s :: rest).all (fun t => isAddressV t.recipient) &&
          ((s :: rest).foldl (fun sum t => sum + t.bips) 0 == 10000)) = true := hv
      rw [Bool.and_eq_true] at hv'
      have hall : ∀ t ∈ s :: rest, isAddressV t.recipient = true :=
        List.all_eq_true.mp hv'.1
      have hsum : sumBips (s :: rest) = 10000 := by
        have h2 : (s :: rest).foldl (fun sum t => sum + t.bips) 0 = 10000 := by
          simpa using hv'.2
        rwa [foldl_bips, Nat.zero_add] at h2
      have hok : ∀ t ∈ s :: rest, splitOk t = true := by
        intro t ht
        have hb : t.bips ≤ 10000 := hsum ▸ bips_le_sumBips ht
        simp only [splitOk, Bool.and_eq_true, decide_eq_true_eq, hall t ht, true_and]
        omega
      have henc : encode (kindOf (.transferSplit (some (s :: rest))))
          (.transferSplit (some (s :: rest))) =
          (if (s :: rest).all splitOk then
            .ok (32 :: (s :: rest).length :: encodeSplits (s :: rest))
          else .error "value out-of-bounds") := rfl
      have hdec : decode (kindOf (.transferSplit (some (s :: rest))))
          (32 :: (s :: rest).length :: encodeSplits (s :: rest)) =
          (if 32 = 32 ∧ (encodeSplits (s :: rest)).length = 2 * (s :: rest).length then
            match decodeSplits (encodeSplits (s :: rest)) with
            | some l => .ok (.transferSplit (some l))
            | none => .error "abi decode failed"
          else .error "abi decode failed") := rfl
      refine ⟨⟨32 :: (s :: rest).length :: encodeSplits (s :: rest), ?_, ?_⟩,
        by simp [canonicalParams]⟩
      · rw [henc, if_pos (List.all_eq_true.mpr hok)]
      · rw [hdec, if_pos ⟨rfl, length_encodeSplits (s :: rest)⟩,
          decodeSplits_encodeSplits hok]
        rfl

/-- Concrete instantiation of the round-trip theorem: a two-way 50/50
split is valid and round-trips. -/
theorem hookCodec_roundtrip_valid_witness :
    validate (.transferSplit (some [⟨3, 5000⟩, ⟨9, 5000⟩])) = true ∧
    ((∃ payload,
        encode (kindOf (.transferSplit (some [⟨3, 5000⟩, ⟨9, 5000⟩])))
            (.transferSplit (some [⟨3, 5000⟩, ⟨9, 5000⟩])) = .ok payload ∧
        decode (kindOf (.transferSplit (some [⟨3, 5000⟩, ⟨9, 5000⟩]))) payload =
          .ok (canonicalParams (.transferSplit (some [⟨3, 5000⟩, ⟨9, 5000⟩])))) ∧
      (canonicalParams (.transferSplit (some [⟨3, 5000⟩, ⟨9, 5000⟩])) =
          .transferSplit (some [⟨3, 5000⟩, ⟨9, 5000⟩]) ↔
        (.transferSplit (some [⟨3, 5000⟩, ⟨9, 5000⟩]) : HookDataParams) ≠
          .transferSplit (some []))) :=
  ⟨by decide, hookCodec_roundtrip_valid _ (by decide)⟩

/-- The spec's validity condition, modelled from the spec's words (§4.1 /
§8): a single-address variant is valid iff its address is well-formed;
`TransferSplit` is valid iff the splits are absent or empty, or every
recipient is well-formed and the shares sum to exactly 10000. -/
def validateSpecP : HookDataParams → Prop
  | .nftMint a => isAddressV a = true
  | .rewardPoints t => isAddressV t = true
  | .transferSplit none => True
  | .transferSplit (some splits) =>
    splits = [] ∨
      ((∀ s ∈ splits, isAddressV s.recipient = true) ∧
        (splits.map Split.bips).sum = 10000)

/-- **C2.** `validate` returns `true` exactly on the values the spec
calls valid: well-formed address for the single-address variants;
absent/empty splits, or all-well-formed recipients with share sum
exactly 10000, for `TransferSplit`. -/
theorem validate_iff_spec (p : HookDataParams) :
    validate p = true ↔ validateSpecP p := by
  cases p with
  | nftMint a => exact Iff.rfl
  | rewardPoints t => exact Iff.rfl
  | transferSplit splits =>
    match splits with
    | none => simp [validate, validateSpecP]
    | some [] => simp [validate, validateSpecP]
    | some (s :: rest) =>
      have e1 : validate (.transferSplit (some (s :: rest))) =
          ((s :: rest).all (fun t => isAddressV t.recipient) &&
            ((s :: rest).foldl (fun sum t => sum + t.bips) 0 == 10000)) := rfl
      have e2 : validateSpecP (.transferSplit (some (s :: rest))) =
          ((s :: rest) = [] ∨
            ((∀ t ∈ s :: rest, isAddressV t.recipient = true) ∧
              ((s :: rest).map Split.bips).sum = 10000)) := rfl
      rw [e1, e2, Bool.and_eq_true, List.all_eq_true, beq_iff_eq, foldl_bips,
        Nat.zero_add, sumBips_eq_sum_map]
      constructor
      · rintro ⟨h1, h2⟩
        exact Or.inr ⟨h1, h2⟩
      · rintro (h | ⟨h1, h2⟩)
        · exact absurd h (by simp)
        · exact ⟨h1, h2⟩

/-- **C3.** Decoding the empty payload fails with the decode error for
`nft-mint` and `reward-points`, and succeeds with the no-splits
plain-transfer value for `transfer-split`. -/
theorem decode_empty_payload :
    decode "nft-mint" [] = .error "NFT mint hookData cannot be empty" ∧
    decode "reward-points" [] = .error "Reward points hookData cannot be empty" ∧
    decode "transfer-split" [] = .ok (.transferSplit none) :=
  ⟨rfl, rfl, rfl⟩

/-- JS `signature.startsWith('0x')`. -/
def startsWith0x (s : String) : Bool :=
  match s.data with
  | c1 :: c2 :: _ => c1 == '0' && c2 == 'x'
  | _ => false

/-- One character of the regex class `[0-9a-fA-F]`. -/
def isHexDigit (c : Char) : Bool :=
  (decide ('0' ≤ c) && decide (c ≤ '9')) ||
  (decide ('a' ≤ c) && decide (c ≤ 'f')) ||
  (decide ('A' ≤ c) && decide (c ≤ 'F'))

/-- The regex test `/^[0-9a-fA-F]+$/.test(hexPart)`: non-empty, all hex
digits. -/
def hexTest (cs : List Char) : Bool :=
  !cs.isEmpty && cs.all isHexDigit

/-- `X402Client.validateSignature` (client source, lines 211-223): the
`0x` prefix check, the exact-length-132 check, then the hex regex on
`signature.slice(2)`.  JS string length and `slice` are modelled on the
character list; every string the function accepts is ASCII, where JS
UTF-16 length and character count agree. -/
def validateSignature (signature : String) : Bool :=
  if startsWith0x signature = false then false
  else if signature.data.length ≠ 132 then false
  else hexTest (signature.data.drop 2)

/-- Signature shape required by the spec (§4.4): the 2-character marker
`0x`, exactly 130 characters after it, every one of them a hex digit. -/
def sigShapeSpec (s : String) : Prop :=
  ∃ rest : List Char, s.data = '0' :: 'x' :: rest ∧ rest.length = 130 ∧
    ∀ c ∈ rest, isHexDigit c = true

theorem startsWith0x_iff (s : String) :
    startsWith0x s = true ↔ ∃ rest, s.data = '0' :: 'x' :: rest := by
  cases s with
  | mk cs =>
    match cs with
    | [] => simp [startsWith0x]
    | [c] => simp [startsWith0x]
    | c1 :: c2 :: rest =>
      show (c1 == '0' && c2 == 'x') = true ↔ _
      rw [Bool.and_eq_true, beq_iff_eq, beq_iff_eq]
      constructor
      · rintro ⟨rfl, rfl⟩
        exact ⟨rest, rfl⟩
      · rintro ⟨rest', h⟩
        cases h
        exact ⟨rfl, rfl⟩

/-- An event record parsed from a receipt log. -/
structure TransactionEvent where
  name : String
  args : List (String × String)
deriving Repr, DecidableEq

/-- A transaction receipt, with each log already matched against the
settlement-router interface: a log matching a known event shape carries
it, an unparseable log is `none`. -/
structure Receipt where
  hash : String
  blockNumber : Nat
  logs : List (Option TransactionEvent)
deriving Repr, DecidableEq

/-- `TransactionResult` of `shared/types.ts`. -/
structure TransactionResult where
  success : Bool
  txHash : String
  blockNumber : Nat
  events : List TransactionEvent
  error : Option String
deriving Repr, DecidableEq

/-- The errors `submitTransaction` can raise (`errors/index.ts`). -/
inductive SubmitError where
  | signatureError (message details : String)
  | transactionError (message : String) (revertReason : Option String)
deriving Repr, DecidableEq

/-- `PreparedTransaction` of `shared/types.ts`, flattened: the `params`
sub-object is inlined and the EIP-712 domain identity read from the
token contract is kept as `domainName`/`domainVersion`/`domainChainId`
(the typed-data message mirrors `value`, `validAfter`, `validBefore`
and `nonce` as decimal strings and is not separately modelled). -/
structure PreparedTransaction where
  routerAddress : String
  nonce : String
  salt : String
  hookData : Payload
  token : String
  fromAddr : String
  value : Int
  validAfter : Nat
  validBefore : Nat
  payTo : String
  facilitatorFee : Int
  hook : String
  domainName : String
  domainVersion : String
  domainChainId : Nat
deriving Repr, DecidableEq

/-- The arguments of one `settleAndExecute` ledger call (client source,
lines 251-264). -/
structure SettleArgs where
  routerAddress : String
  token : String
  fromAddr : String
  value : Int
  validAfter : Nat
  validBefore : Nat
  nonce : String
  signature : String
  salt : String
  payTo : String
  facilitatorFee : Int
  hook : String
  hookData : Payload
deriving Repr, DecidableEq

/-- Result of `submitTransaction` together with the trace of settlement
calls actually issued to the ledger. -/
structure SubmitOutcome where
  result : Except SubmitError TransactionResult
  ledgerCalls : List SettleArgs
deriving Repr

/-- Receipt-log parsing (client source, lines 269-290): a log matching
a known event shape yields that event; an unparseable log becomes the
`Unknown` event with empty arguments rather than being dropped. -/
def parseLog : Option TransactionEvent → TransactionEvent
  | some e => e
  | none => { name := "Unknown", args := [] }

/-- The revert-reason extraction `error.message.match(/reason="([^"]+)"/)`
(client source, lines 301-302): scan for an occurrence of `reason="`
followed by a non-empty run of non-quote characters and a closing
quote; a candidate that fails (empty run or unterminated) is skipped
and scanning continues, as regex scanning does. -/
def extractReason : List Char → Option String
  | [] => none
  | c :: rest =>
    if ("reason=\"".data).isPrefixOf (c :: rest) then
      let suffix := (c :: rest).drop 8
      let r := suffix.takeWhile (fun ch => ch ≠ '"')
      if r.length > 0 ∧ r.length < suffix.length then some (String.mk r)
      else extractReason rest
    else extractReason rest

/-- `X402Client.submitTransaction` (client source, lines 228-312).  The
ledger side (provider, wallet, router contract, `tx.wait`) is an oracle
from the settle arguments to either a receipt or a raw error message;
`ledgerCalls` records the settlement calls actually issued.  The
signature-shape check runs before any ledger interaction and raises
`SignatureError`; a ledger failure is wrapped into `TransactionError`
with the extracted revert reason. -/
def submitTransaction (prepared : PreparedTransaction) (signature : String)
    (ledger : SettleArgs → Except String Receipt) : SubmitOutcome :=
  if validateSignature signature = false then
    { result := .error (.signatureError "Invalid signature format"
        "Signature must be a 65-byte hex string starting with 0x"),
      ledgerCalls := [] }
  else
    let args : SettleArgs :=
      { routerAddress := prepared.routerAddress, token := prepared.token,
        fromAddr := prepared.fromAddr, value := prepared.value,
        validAfter := prepared.validAfter, validBefore := prepared.validBefore,
        nonce := prepared.nonce, signature := signature, salt := prepared.salt,
        payTo := prepared.payTo, facilitatorFee := prepared.facilitatorFee,
        hook := prepared.hook, hookData := prepared.hookData }
    match ledger args with
    | .ok receipt =>
      let res : TransactionResult :=
        { success := true, txHash := receipt.hash,
          blockNumber := receipt.blockNumber,
          events := receipt.logs.map parseLog, error := none }
      { result := .ok res, ledgerCalls := [args] }
    | .error msg =>
      { result := .error (.transactionError ("Transaction failed: " ++ msg)
          (extractReason msg.data)),
        ledgerCalls := [args] }

/-- **C4.** `validateSignature` accepts exactly the strings of shape
`0x` + 130 hex digits; and whenever the signature fails that check,
`submitTransaction` raises `SignatureError` with an empty ledger-call
trace — i.e. before any ledger interaction. -/
theorem signature_shape_and_gate :
    (∀ s : String, validateSignature s = true ↔ sigShapeSpec s) ∧
    (∀ (prepared : PreparedTransaction) (sig : String)
        (ledger : SettleArgs → Except String Receipt),
      validateSignature sig = false →
        submitTransaction prepared sig ledger =
          { result := .error (.signatureError "Invalid signature format"
              "Signature must be a 65-byte hex string starting with 0x"),
            ledgerCalls := [] }) := by
  constructor
  · intro s
    constructor
    · intro h
      simp only [validateSignature] at h
      by_cases h0 : startsWith0x s = false
      · rw [if_pos h0] at h
        exact absurd h (by simp)
      · rw [if_neg h0] at h
        have h0' : startsWith0x s = true := by
          revert h0; cases startsWith0x s <;> simp
        obtain ⟨rest, hdata⟩ := (startsWith0x_iff s).mp h0'
        by_cases hl : s.data.length ≠ 132
        · rw [if_pos hl] at h
          exact absurd h (by simp)
        · rw [if_neg hl] at h
          push_neg at hl
          refine ⟨rest, hdata, ?_, ?_⟩
          · rw [hdata] at hl
            simp only [List.length_cons] at hl
            omega
          · rw [hdata] at h
            have hd : (('0' :: 'x' :: rest : List Char).drop 2) = rest := rfl
            rw [hd] at h
            simp only [hexTest, Bool.and_eq_true, List.all_eq_true] at h
            exact h.2
    · rintro ⟨rest, hdata, hlen, hhex⟩
      have h0 : startsWith0x s = true := (startsWith0x_iff s).mpr ⟨rest, hdata⟩
      have hl : s.data.length = 132 := by
        rw [hdata]
        simp only [List.length_cons]
        omega
      simp only [validateSignature]
      rw [if_neg (by simp [h0]), if_neg (by simp [hl]), hdata]
      have hd : (('0' :: 'x' :: rest : List Char).drop 2) = rest := rfl
      rw [hd]
      have hne : rest ≠ [] := by
        intro hcontr
        rw [hcontr] at hlen
        simp at hlen
      have hie : rest.isEmpty = false := by
        cases rest with
        | nil => exact absurd rfl hne
        | cons a b => rfl
      simp only [hexTest, hie, Bool.not_false, Bool.true_and]
      exact List.all_eq_true.mpr hhex
  · intro prepared sig ledger h
    unfold submitTransaction
    rw [if_pos h]

/-- Concrete prepared transaction used to instantiate theorems. -/
def prep0 : PreparedTransaction :=
  { routerAddress := "0xr", nonce := "0xn", salt := "0xs", hookData := [],
    token := "0xt", fromAddr := "0xf", value := 1, validAfter := 0,
    validBefore := 10, payTo := "0xp", facilitatorFee := 0, hook := "0xh",
    domainName := "USD Coin", domainVersion := "1", domainChainId := 338 }

/-- Concrete ledger oracle used to instantiate theorems. -/
def ledger0 : SettleArgs → Except String Receipt :=
  fun _ => .ok { hash := "0xabc", blockNumber := 1, logs := [] }

/-- Concrete instantiation of the signature gate: the malformed
signature `"bad"` is rejected before any ledger call. -/
theorem signature_shape_and_gate_witness :
    validateSignature "bad" = false ∧
    submitTransaction prep0 "bad" ledger0 =
      { result := .error (.signatureError "Invalid signature format"
          "Signature must be a 65-byte hex string starting with 0x"),
        ledgerCalls := [] } :=
  ⟨by decide, signature_shape_and_gate.2 prep0 "bad" ledger0 (by decide)⟩

/-- The decimal digit class `[0-9]`. -/
def isDigitCh (c : Char) : Bool :=
  decide ('0' ≤ c) && decide (c ≤ '9')

/-- The ethers v6 `FixedNumber.fromString` input grammar
`/^(-?)([0-9]*)\.?([0-9]*)$/`: an optional minus sign, whole digits, an
optional dot, fraction digits, nothing else.  Returns the sign and the
whole/fraction digit runs; a string outside the grammar is `none`. -/
def parseDecimalParts (cs : List Char) : Option (Bool × List Char × List Char) :=
  let p := match cs with
    | '-' :: rest => (true, rest)
    | _ => (false, cs)
  let whole := p.2.takeWhile isDigitCh
  let rest := p.2.dropWhile isDigitCh
  match rest with
  | [] => some (p.1, whole, [])
  | '.' :: frac => if frac.all isDigitCh then some (p.1, whole, frac) else none
  | _ => none

/-- Value of a digit run, most significant first (`BigInt` of the
concatenated digit string). -/
def digitsToNat (l : List Char) : Nat :=
  l.foldl (fun acc c => 10 * acc + (c.toNat - 48)) 0

/-- Core of ethers v6 `parseUnits(value, 6)`, i.e.
`FixedNumber.fromString(value, { decimals: 6, width: 512 }).value`,
applied to an already-matched grammar result: reject when the match
has no digits at all (`invalid FixedNumber string value`); pad the
fraction to 6 digits; reject when any fraction digit past the 6th is
non-zero (`too many decimals for format` — trailing zeros beyond the
6th place are allowed and truncated); the value is
`±(whole·10^6 + fraction6)`, rejected when it does not fit the signed
512-bit width (`overflow`). -/
def parseUnitsCore (parts : Option (Bool × List Char × List Char)) : Option Int :=
  match parts with
  | none => none
  | some (neg, whole, frac) =>
    if whole.length + frac.length = 0 then none
    else if (frac.drop 6).all (fun c => c == '0') = false then none
    else
      let frac6 := (frac ++ List.replicate 6 '0').take 6
      let mag : Int := ((digitsToNat whole * 10 ^ 6 + digitsToNat frac6 : Nat) : Int)
      let v : Int := if neg then -mag else mag
      let limit : Int := ((2 ^ 511 : Nat) : Int)
      if -limit ≤ v ∧ v < limit then some v else none

/-- `ethers.parseUnits(s, 6)` — the amount parser used by
`prepareTransaction` ("USDC has 6 decimals"); `none` models the ethers
throw. -/
def parseUnits6 (s : String) : Option Int :=
  parseUnitsCore (parseDecimalParts s.data)

example : parseUnits6 "0.1" = some 100000 := by decide
example : parseUnits6 "0.0000001" = none := by decide
example : parseUnits6 "1.0000000" = some 1000000 := by decide
example : parseUnits6 "-0.5" = some (-500000) := by decide
example : parseUnits6 "" = none := by decide
example : parseUnits6 "1e5" = none := by decide
example : parseUnits6 "1.2.3" = none := by decide
example : parseUnits6 "." = none := by decide

/-- `NetworkSettings` of `shared/types.ts`. -/
structure NetworkSettings where
  chainId : Nat
  rpcUrl : String
  usdcAddress : String
  blockExplorer : String
deriving Repr, DecidableEq

/-- The static per-network table `NETWORK_CONFIGS`
(`shared/network-config.ts`). -/
def NETWORK_CONFIGS (network : String) : Option NetworkSettings :=
  if network = "cronos" then
    some { chainId := 25, rpcUrl := "https://evm.cronos.org",
           usdcAddress := "0xc21223249CA28397B4B6541dfFaEcC539BfF0c59",
           blockExplorer := "https://explorer.cronos.org" }
  else if network = "cronos-testnet" then
    some { chainId := 338, rpcUrl := "https://evm-t3.cronos.org",
           usdcAddress := "0xc01efAaF7C5C61bEbFAeb358E1161b537b8bC0e0",
           blockExplorer := "https://explorer.cronos.org/testnet" }
  else none

/-- `NetworkConfig.getConfig` (`shared/network-config.ts`, lines
256-269): the defaults for the network, with only `rpcUrl` replaced by
a caller-supplied override. -/
def getConfig (network : String) (customRpcUrl : Option String) :
    Option NetworkSettings :=
  (NETWORK_CONFIGS network).map fun c =>
    match customRpcUrl with
    | some u => { c with rpcUrl := u }
    | none => c

/-- `TokenInfo` of `shared/types.ts` (EIP-712 domain identity). -/
structure TokenInfo where
  name : String
  version : String
deriving Repr, DecidableEq

/-- The full service object `X402Service` (`shared/types.ts`): the
registration config plus resolved on-chain data.  The optional
pass-through objects `supportingContracts` and `defaults` are copied
verbatim by every modelled operation and are omitted. -/
structure X402Service where
  id : String
  title : String
  description : Option String
  hookType : String
  hookAddress : String
  network : String
  settlementRouter : String
  usdcAddress : String
  chainId : Nat
deriving Repr, DecidableEq

/-- Arguments of the `calculateCommitment` ledger read
(`shared/contract-reader.ts`, `CommitmentParams` plus the router the
call targets). -/
structure CommitmentParams where
  routerAddress : String
  token : String
  fromAddr : String
  value : Int
  validAfter : Nat
  validBefore : Nat
  salt : String
  payTo : String
  facilitatorFee : Int
  hook : String
  hookData : Payload
deriving Repr, DecidableEq

/-- `TransactionParams` of `shared/types.ts`; the two optional fields
keep their optionality. -/
structure TransactionParams where
  service : X402Service
  payerAddress : String
  payTo : String
  paymentAmount : String
  facilitatorFee : Option String
  hookDataParams : HookDataParams
  validitySeconds : Option Nat
deriving Repr, DecidableEq

/-- JS `params.facilitatorFee || '0'`: `undefined` and the falsy empty
string both fall back to `'0'`. -/
def effFacilitatorFee : Option String → String
  | none => "0"
  | some s => if s = "" then "0" else s

/-- JS `params.validitySeconds || 3600`: `undefined` and the falsy
number `0` both fall back to `3600`. -/
def effValiditySeconds : Option Nat → Nat
  | none => 3600
  | some v => if v = 0 then 3600 else v

/-- `X402Client.prepareTransaction` (client source, lines 115-206).
`Date.now` (in seconds) and the random 32-byte salt are explicit
inputs; the two ledger reads (`calculateCommitment`, `getTokenInfo`)
are oracles.  Failures of encoding, amount parsing or either ledger
read abort the preparation, exactly as the JS throws do. -/
def prepareTransaction (now : Nat) (salt : String)
    (commitOracle : CommitmentParams → Except String String)
    (tokenOracle : String → Except String TokenInfo)
    (params : TransactionParams) : Except String PreparedTransaction :=
  match encode params.service.hookType params.hookDataParams with
  | .error e => .error e
  | .ok hookData =>
    match parseUnits6 params.paymentAmount with
    | none => .error "invalid decimal string"
    | some value =>
      match parseUnits6 (effFacilitatorFee params.facilitatorFee) with
      | none => .error "invalid decimal string"
      | some fee =>
        match commitOracle
          { routerAddress := params.service.settlementRouter,
            token := params.service.usdcAddress,
            fromAddr := params.payerAddress, value := value,
            validAfter := 0,
            validBefore := now + effValiditySeconds params.validitySeconds,
            salt := salt, payTo := params.payTo, facilitatorFee := fee,
            hook := params.service.hookAddress, hookData := hookData } with
        | .error e => .error e
        | .ok nonce =>
          match tokenOracle params.service.usdcAddress with
          | .error e => .error e
          | .ok tokenInfo =>
            .ok { routerAddress := params.service.settlementRouter,
                  nonce := nonce, salt := salt, hookData := hookData,
                  token := params.service.usdcAddress,
                  fromAddr := params.payerAddress, value := value,
                  validAfter := 0,
                  validBefore := now + effValiditySeconds params.validitySeconds,
                  payTo := params.payTo, facilitatorFee := fee,
                  hook := params.service.hookAddress,
                  domainName := tokenInfo.name,
                  domainVersion := tokenInfo.version,
                  domainChainId := params.service.chainId }

/-- **C8 (amended).** Every successful preparation has
`validAfter = 0`, and `validBefore = now + validitySeconds` for every
caller-specified **non-zero** `validitySeconds`; the 3600 default
applies when `validitySeconds` is unspecified **or zero** (JS `||`
defaulting), and likewise the `"0"` fee default applies when
`facilitatorFee` is unspecified **or the empty string**, the supplied
fee string being parsed otherwise. -/
theorem prepare_time_and_fee_defaults (now : Nat) (salt : String)
    (commitOracle : CommitmentParams → Except String String)
    (tokenOracle : String → Except String TokenInfo)
    (params : TransactionParams) (r : PreparedTransaction)
    (h : prepareTransaction now salt commitOracle tokenOracle params = .ok r) :
    r.validAfter = 0 ∧
    (∀ v, params.validitySeconds = some v → v ≠ 0 → r.validBefore = now + v) ∧
    ((params.validitySeconds = none ∨ params.validitySeconds = some 0) →
      r.validBefore = now + 3600) ∧
    ((params.facilitatorFee = none ∨ params.facilitatorFee = some "") →
      r.facilitatorFee = 0) ∧
    (∀ fs, params.facilitatorFee = some fs → fs ≠ "" →
      parseUnits6 fs = some r.facilitatorFee) := by
  unfold prepareTransaction at h
  repeat' split at h
  any_goals exact Except.noConfusion h
  rename_i x1 hookData henc x2 value hval x3 fee hfee x4 nonce hcom x5 tokenInfo htok
  injection h with h
  subst h
  refine ⟨rfl, ?_, ?_, ?_, ?_⟩
  · intro v hv hne
    show now + effValiditySeconds params.validitySeconds = now + v
    rw [hv]
    simp [effValiditySeconds, hne]
  · intro hv
    show now + effValiditySeconds params.validitySeconds = now + 3600
    rcases hv with hv | hv <;> rw [hv] <;> simp [effValiditySeconds]
  · intro hfe
    have hf0 : effFacilitatorFee params.facilitatorFee = "0" := by
      rcases hfe with hfe | hfe <;> simp [effFacilitatorFee, hfe]
    rw [hf0] at hfee
    have : parseUnits6 "0" = some 0 := by decide
    rw [this] at hfee
    show fee = 0
    exact (Option.some.inj hfee).symm
  · intro fs hfs hne
    have hf1 : effFacilitatorFee params.facilitatorFee = fs := by
      simp [effFacilitatorFee, hfs, hne]
    rw [hf1] at hfee
    show parseUnits6 fs = some fee
    exact hfee

/-- A concrete registered service (as stored by the registry for the
testnet). -/
def svc0 : X402Service :=
  { id := "pay", title := "t", description := none,
    hookType := "transfer-split", hookAddress := "0xh",
    network := "cronos-testnet", settlementRouter := "0xr",
    usdcAddress := "0xu", chainId := 338 }

/-- Transaction parameters that DO specify `validitySeconds` (as `0`)
and DO specify `facilitatorFee` (as `""`). -/
def paramsVS0 : TransactionParams :=
  { service := svc0, payerAddress := "0xpayer", payTo := "0xpayee",
    paymentAmount := "1", facilitatorFee := some "",
    hookDataParams := .transferSplit none, validitySeconds := some 0 }

/-- Concrete commitment oracle. -/
def co0 : CommitmentParams → Except String String := fun _ => .ok "0xnonce"

/-- Concrete token-info oracle. -/
def to0 : String → Except String TokenInfo :=
  fun _ => .ok { name := "USDC", version := "1" }

/-- **C8 counterexample.** At `now = 1000` with caller-specified
`validitySeconds = 0` and caller-specified `facilitatorFee = ""`, the
prepared authorization has `validBefore = 4600 = now + 3600` — not
`now + 0` as the claim's "validitySeconds is the caller-supplied value
for every caller-specified value" requires — and the fee default was
applied although `facilitatorFee` was specified. -/
theorem prepare_validity_zero_counterexample :
    paramsVS0.validitySeconds = some 0 ∧
    paramsVS0.facilitatorFee = some "" ∧
    (prepareTransaction 1000 "0xsalt" co0 to0 paramsVS0).map
        (fun r => (r.validBefore, r.facilitatorFee)) = .ok (4600, 0) ∧
    (4600 : Nat) ≠ 1000 + 0 :=
  ⟨rfl, rfl, rfl, by decide⟩

/-- The concrete prepared transaction produced from `paramsVS0`. -/
def prep8 : PreparedTransaction :=
  { routerAddress := "0xr", nonce := "0xnonce", salt := "0xsalt",
    hookData := [], token := "0xu", fromAddr := "0xpayer",
    value := 1000000, validAfter := 0, validBefore := 4600,
    payTo := "0xpayee", facilitatorFee := 0, hook := "0xh",
    domainName := "USDC", domainVersion := "1", domainChainId := 338 }

/-- Concrete instantiation of the amended defaulting theorem. -/
theorem prepare_time_and_fee_defaults_witness :
    prep8.validAfter = 0 ∧ prep8.validBefore = 1000 + 3600 ∧
    prep8.facilitatorFee = 0 := by
  have h := prepare_time_and_fee_defaults 1000 "0xsalt" co0 to0 paramsVS0 prep8 rfl
  exact ⟨h.1, h.2.2.1 (Or.inr rfl), h.2.2.2.1 (Or.inr rfl)⟩

/-- **C9 (amended).** Amount parsing at 6 fractional digits: `"0.1"`
parses to `100000`; `"0.0000001"` fails; a decimal string with more
than 6 fractional digits fails whenever some digit past the 6th is
non-zero (all-zero excess digits are accepted and truncated, see the
counterexample); strings outside the decimal grammar fail. -/
theorem parseUnits_precision_amended :
    parseUnits6 "0.1" = some 100000 ∧
    parseUnits6 "0.0000001" = none ∧
    (∀ (s : String) (neg : Bool) (whole frac : List Char),
      parseDecimalParts s.data = some (neg, whole, frac) →
      (frac.drop 6).any (fun c => !(c == '0')) = true →
      parseUnits6 s = none) ∧
    (∀ s : String, parseDecimalParts s.data = none → parseUnits6 s = none) := by
  refine ⟨by decide, by decide, ?_, ?_⟩
  · intro s neg whole frac hp hany
    have hall : (frac.drop 6).all (fun c => c == '0') = false := by
      rcases List.any_eq_true.mp hany with ⟨c, hc, hcne⟩
      refine List.all_eq_false.mpr ⟨c, hc, ?_⟩
      simpa using hcne
    have hfl : 6 < frac.length := by
      rcases List.any_eq_true.mp hany with ⟨c, hc, _⟩
      have h1 : 0 < (frac.drop 6).length :=
        List.length_pos.mpr (List.ne_nil_of_mem hc)
      have h2 : (frac.drop 6).length = frac.length - 6 := List.length_drop 6 frac
      omega
    unfold parseUnits6
    rw [hp]
    show parseUnitsCore (some (neg, whole, frac)) = none
    simp only [parseUnitsCore]
    rw [if_neg (by omega), if_pos (by simp [hall])]
  · intro s hp
    unfold parseUnits6
    rw [hp]
    rfl

/-- **C9 counterexample.** `"1.0000000"` has 7 fractional digits, yet
it parses (to `1000000`): ethers v6 accepts excess fractional digits
when they are all zeros, so "any string with more than 6 fractional
digits fails to parse" is false. -/
theorem parseUnits_trailing_zeros_counterexample :
    parseDecimalParts "1.0000000".data =
      some (false, ['1'], ['0', '0', '0', '0', '0', '0', '0']) ∧
    (['0', '0', '0', '0', '0', '0', '0'] : List Char).length = 7 ∧
    parseUnits6 "1.0000000" = some 1000000 :=
  ⟨by decide, by decide, by decide⟩

/-- Concrete instantiation of the amended precision theorem: the
universally quantified non-zero-excess clause applied to
`"0.0000001"`. -/
theorem parseUnits_precision_amended_witness :
    parseUnits6 "0.0000001" = none :=
  parseUnits_precision_amended.2.2.1 "0.0000001" false ['0']
    ['0', '0', '0', '0', '0', '0', '1'] (by decide) (by decide)

/-- The ledger-read error taxonomy of `ContractReader` (`errors/index.ts`). -/
inductive LedgerError where
  | contractNotFound (address : String)
  | network (message : String)
deriving Repr, DecidableEq

/-- Whether `pat` occurs as a contiguous subsequence of the list. -/
def containsSeq (pat : List Char) : List Char → Bool
  | [] => pat.isEmpty
  | c :: rest => pat.isPrefixOf (c :: rest) || containsSeq pat rest

/-- JS `message.includes(pat)`. -/
def includes (msg pat : String) : Bool :=
  containsSeq pat.data msg.data

/-- `ContractReader.getSettlementRouter` (`shared/contract-reader.ts`,
lines 57-71): the raw `settlementRouter()` eth call is an oracle
returning either the router address or a raw error message; a message
containing `call revert` or `CALL_EXCEPTION` is classified as
`ContractNotFoundError` at the hook address, anything else becomes a
`NetworkError`. -/
def getSettlementRouter (rawCall : String → Except String String)
    (hookAddress : String) : Except LedgerError String :=
  match rawCall hookAddress with
  | .ok routerAddress => .ok routerAddress
  | .error msg =>
    if includes msg "call revert" || includes msg "CALL_EXCEPTION" then
      .error (.contractNotFound hookAddress)
    else
      .error (.network ("Failed to read settlement router: " ++ msg))

/-- `X402ServiceConfig` (`shared/types.ts`).  The four required fields
are `Option`s so an absent value is expressible (`some ""` is the other
JS-falsy case); `extraUsdcAddress` / `extraChainId` model extra
properties a JS caller may attach to the config object — the
spread-then-override in `addService` discards them. -/
structure X402ServiceConfig where
  id : Option String
  title : String
  description : Option String
  hookType : Option String
  hookAddress : Option String
  network : Option String
  extraUsdcAddress : Option String
  extraChainId : Option Nat
deriving Repr, DecidableEq

/-- JS falsiness of an optional string field: `undefined` or `''`. -/
def strFalsy : Option String → Bool
  | none => true
  | some s => s.isEmpty

/-- The `missingFields` list collected by `addService` (server source,
lines 70-74), in source order. -/
def requiredMissing (cfg : X402ServiceConfig) : List String :=
  (if strFalsy cfg.id then ["id"] else []) ++
  (if strFalsy cfg.hookAddress then ["hookAddress"] else []) ++
  (if strFalsy cfg.hookType then ["hookType"] else []) ++
  (if strFalsy cfg.network then ["network"] else [])

/-- The errors `addService` raises. -/
inductive AddServiceError where
  | configuration (message : String) (missingFields : List String)
  | ledger (e : LedgerError)
deriving Repr, DecidableEq

/-- The record built on successful registration (server source, lines
89-94): `{ ...serviceConfig, settlementRouter, usdcAddress, chainId }`
— the config spread first, then the resolved router and the
network-derived `usdcAddress` / `chainId`, so any caller-supplied
values for those two are overwritten from the resolved
`NetworkSettings`. -/
def mkService (settings : NetworkSettings) (cfg : X402ServiceConfig)
    (router : String) : X402Service :=
  { id := cfg.id.getD "", title := cfg.title, description := cfg.description,
    hookType := cfg.hookType.getD "", hookAddress := cfg.hookAddress.getD "",
    network := cfg.network.getD "", settlementRouter := router,
    usdcAddress := settings.usdcAddress, chainId := settings.chainId }

/-- ECMAScript `Map.set` on an insertion-ordered entry list: an
existing key is updated in place (keeping its position), a fresh key is
appended at the end. -/
def mapSet (l : List (String × X402Service)) (k : String) (v : X402Service) :
    List (String × X402Service) :=
  match l with
  | [] => [(k, v)]
  | (k', v') :: rest =>
    if k' = k then (k, v) :: rest else (k', v') :: mapSet rest k v

/-- ECMAScript `Map.get`: the entry with the key, if any. -/
def mapGet (l : List (String × X402Service)) (k : String) : Option X402Service :=
  match l with
  | [] => none
  | (k', v) :: rest => if k' = k then some v else mapGet rest k

/-- `X402Server.listServices` (server source, lines 109-111):
`Array.from(this.services.values())`, the records in insertion
order. -/
def listServices (l : List (String × X402Service)) : List X402Service :=
  l.map Prod.snd

/-- `X402Server.getService` (server source, lines 102-104). -/
def getService (l : List (String × X402Service)) (id : String) :
    Option X402Service :=
  mapGet l id

/-- Result of one `addService` call: the registry store after the
call, the call's result, and the hook addresses whose settlement
router was actually read from the ledger. -/
structure AddOutcome where
  services : List (String × X402Service)
  result : Except AddServiceError Unit
  ledgerReads : List String
deriving Repr

/-- `X402Server.addService` (server source, lines 68-97): collect every
missing required field and fail with `ConfigurationError` before any
ledger read; otherwise read the hook's settlement router through the
Ledger Gateway, propagating its failure with the store untouched; on
success store the resolved record under `cfg.id`, overwriting any
prior record with that id. -/
def addService (settings : NetworkSettings)
    (rawCall : String → Except String String)
    (services : List (String × X402Service)) (cfg : X402ServiceConfig) :
    AddOutcome :=
  if (requiredMissing cfg).length > 0 then
    { services := services,
      result := .error (.configuration
        ("Missing required service fields: " ++
          String.intercalate ", " (requiredMissing cfg))
        (requiredMissing cfg)),
      ledgerReads := [] }
  else
    match getSettlementRouter rawCall (cfg.hookAddress.getD "") with
    | .error e =>
      { services := services, result := .error (.ledger e),
        ledgerReads := [cfg.hookAddress.getD ""] }
    | .ok router =>
      { services := mapSet services (cfg.id.getD "") (mkService settings cfg router),
        result := .ok (), ledgerReads := [cfg.hookAddress.getD ""] }

/-- A sequence of registrations against a freshly constructed server
(whose store starts empty). -/
def registerAll (settings : NetworkSettings)
    (rawCall : String → Except String String)
    (cfgs : List X402ServiceConfig) : List (String × X402Service) :=
  cfgs.foldl (fun services cfg => (addService settings rawCall services cfg).services) []

theorem mem_mapSet {l : List (String × X402Service)} {k : String}
    {v : X402Service} {p : String × X402Service} (h : p ∈ mapSet l k v) :
    p = (k, v) ∨ p ∈ l := by
  induction l with
  | nil => simpa [mapSet] using h
  | cons q rest ih =>
    obtain ⟨k', v'⟩ := q
    by_cases hk : k' = k
    · simp only [mapSet, if_pos hk] at h
      rcases List.mem_cons.mp h with h' | h'
      · exact Or.inl h'
      · exact Or.inr (List.mem_cons_of_mem _ h')
    · simp only [mapSet, if_neg hk] at h
      rcases List.mem_cons.mp h with h' | h'
      · exact Or.inr (by simp [h'])
      · rcases ih h' with h'' | h''
        · exact Or.inl h''
        · exact Or.inr (List.mem_cons_of_mem _ h'')

theorem mapGet_mapSet (l : List (String × X402Service)) (k : String)
    (v : X402Service) : mapGet (mapSet l k v) k = some v := by
  induction l with
  | nil => simp [mapSet, mapGet]
  | cons q rest ih =>
    obtain ⟨k', v'⟩ := q
    by_cases hk : k' = k
    · simp [mapSet, hk, mapGet]
    · simp [mapSet, hk, mapGet, ih]

theorem mapSet_keys_of_mem {l : List (String × X402Service)} {k : String}
    {v : X402Service} (h : k ∈ l.map Prod.fst) :
    (mapSet l k v).map Prod.fst = l.map Prod.fst := by
  induction l with
  | nil => simp at h
  | cons q rest ih =>
    obtain ⟨k', v'⟩ := q
    by_cases hk : k' = k
    · simp [mapSet, hk]
    · have h' : k ∈ rest.map Prod.fst := by
        simp only [List.map_cons, List.mem_cons] at h
        rcases h with h | h
        · exact absurd h.symm hk
        · exact h
      simp [mapSet, hk, ih h']

theorem mapSet_append_of_not_mem {l : List (String × X402Service)} {k : String}
    {v : X402Service} (h : k ∉ l.map Prod.fst) :
    mapSet l k v = l ++ [(k, v)] := by
  induction l with
  | nil => simp [mapSet]
  | cons q rest ih =>
    obtain ⟨k', v'⟩ := q
    have hk : k' ≠ k := by
      intro hcontr
      exact h (by simp [hcontr])
    have h' : k ∉ rest.map Prod.fst := fun hc => h (by simp [hc])
    simp [mapSet, hk, ih h']

/-- **C5.** When any subset of the required fields is missing (JS-falsy),
`addService` returns the `ConfigurationError` whose `missingFields`
list is the full collected list — containing every missing required
field, not just the first — the ledger is never read, and the store is
untouched. -/
theorem addService_missing_fields (settings : NetworkSettings)
    (rawCall : String → Except String String)
    (services : List (String × X402Service)) (cfg : X402ServiceConfig)
    (h : requiredMissing cfg ≠ []) :
    addService settings rawCall services cfg =
      { services := services,
        result := .error (.configuration
          ("Missing required service fields: " ++
            String.intercalate ", " (requiredMissing cfg))
          (requiredMissing cfg)),
        ledgerReads := [] } ∧
    (strFalsy cfg.id = true → "id" ∈ requiredMissing cfg) ∧
    (strFalsy cfg.hookAddress = true → "hookAddress" ∈ requiredMissing cfg) ∧
    (strFalsy cfg.hookType = true → "hookType" ∈ requiredMissing cfg) ∧
    (strFalsy cfg.network = true → "network" ∈ requiredMissing cfg) := by
  have hlen : 0 < (requiredMissing cfg).length := List.length_pos.mpr h
  refine ⟨?_, ?_, ?_, ?_, ?_⟩
  · unfold addService
    rw [if_pos hlen]
  · intro hf; simp [requiredMissing, hf]
  · intro hf; simp [requiredMissing, hf]
  · intro hf; simp [requiredMissing, hf]
  · intro hf; simp [requiredMissing, hf]

/-- Concrete settings standing for a resolved `NetworkSettings`. -/
def settings0 : NetworkSettings :=
  { chainId := 338, rpcUrl := "https://evm-t3.cronos.org",
    usdcAddress := "0xc01efAaF7C5C61bEbFAeb358E1161b537b8bC0e0",
    blockExplorer := "https://explorer.cronos.org/testnet" }

/-- A raw ledger read that succeeds with a router address. -/
def rawCallOk : String → Except String String := fun _ => .ok "0xrouter"

/-- A raw ledger read failing the way ethers fails on an address with
no code. -/
def rawCallRevert : String → Except String String :=
  fun _ => .error "CALL_EXCEPTION: missing revert data"

/-- A config with `hookAddress` present-but-empty and `hookType`,
`network` absent. -/
def cfgMissing : X402ServiceConfig :=
  { id := some "svc", title := "t", description := none, hookType := none,
    hookAddress := some "", network := none, extraUsdcAddress := none,
    extraChainId := none }

/-- Concrete instantiation of the missing-fields theorem: three fields
missing, all three reported, no ledger read. -/
theorem addService_missing_fields_witness :
    requiredMissing cfgMissing = ["hookAddress", "hookType", "network"] ∧
    (addService settings0 rawCallOk [] cfgMissing).ledgerReads = [] ∧
    (addService settings0 rawCallOk [] cfgMissing).result =
      .error (.configuration
        "Missing required service fields: hookAddress, hookType, network"
        ["hookAddress", "hookType", "network"]) := by
  have h := addService_missing_fields settings0 rawCallOk [] cfgMissing (by decide)
  refine ⟨rfl, ?_, ?_⟩
  · rw [h.1]
  · rw [h.1]
    rfl

/-- **C6.** If the settlement-router read fails during `addService` —
in particular with `ContractNotFoundError` — the record store is left
exactly as it was: the result is not a success, no record (partial or
otherwise) appears under the attempted id, and all stored records are
untouched. -/
theorem addService_ledger_failure_unchanged (settings : NetworkSettings)
    (rawCall : String → Except String String)
    (services : List (String × X402Service)) (cfg : X402ServiceConfig)
    (e : LedgerError)
    (h : getSettlementRouter rawCall (cfg.hookAddress.getD "") = .error e) :
    (addService settings rawCall services cfg).services = services ∧
    (addService settings rawCall services cfg).result ≠ .ok () ∧
    getService (addService settings rawCall services cfg).services (cfg.id.getD "") =
      getService services (cfg.id.getD "") := by
  by_cases hm : 0 < (requiredMissing cfg).length
  · have hout : addService settings rawCall services cfg =
        { services := services,
          result := .error (.configuration
            ("Missing required service fields: " ++
              String.intercalate ", " (requiredMissing cfg))
            (requiredMissing cfg)),
          ledgerReads := [] } := by
      unfold addService
      rw [if_pos hm]
    rw [hout]
    exact ⟨rfl, by simp, rfl⟩
  · have hout : addService settings rawCall services cfg =
        { services := services, result := .error (.ledger e),
          ledgerReads := [cfg.hookAddress.getD ""] } := by
      unfold addService
      rw [if_neg hm, h]
    rw [hout]
    exact ⟨rfl, by simp, rfl⟩

/-- A fully populated registration config, carrying adversarial extra
`usdcAddress` / `chainId` properties. -/
def cfgFull : X402ServiceConfig :=
  { id := some "nft-mint", title := "NFT Mint Service",
    description := some "mint", hookType := some "nft-mint",
    hookAddress := some "0xhook", network := some "cronos-testnet",
    extraUsdcAddress := some "0xEVIL", extraChainId := some 1 }

/-- Concrete instantiation of the unchanged-store theorem: a no-code
hook address is classified as `ContractNotFoundError` and the store
keeps exactly its prior single record. -/
theorem addService_ledger_failure_unchanged_witness :
    getSettlementRouter rawCallRevert "0xhook" =
      .error (.contractNotFound "0xhook") ∧
    (addService settings0 rawCallRevert [("pay", svc0)] cfgFull).services =
      [("pay", svc0)] := by
  have hclass : getSettlementRouter rawCallRevert "0xhook" =
      .error (.contractNotFound "0xhook") := rfl
  exact ⟨hclass,
    (addService_ledger_failure_unchanged settings0 rawCallRevert
      [("pay", svc0)] cfgFull (.contractNotFound "0xhook") hclass).1⟩

theorem mem_addService_services {settings : NetworkSettings}
    {rawCall : String → Except String String}
    {services : List (String × X402Service)} {cfg : X402ServiceConfig}
    {p : String × X402Service}
    (h : p ∈ (addService settings rawCall services cfg).services) :
    p ∈ services ∨
      ∃ router, p = (cfg.id.getD "", mkService settings cfg router) := by
  unfold addService at h
  by_cases hm : 0 < (requiredMissing cfg).length
  · rw [if_pos hm] at h
    exact Or.inl h
  · rw [if_neg hm] at h
    cases hr : getSettlementRouter rawCall (cfg.hookAddress.getD "") with
    | error e =>
      rw [hr] at h
      exact Or.inl h
    | ok router =>
      rw [hr] at h
      rcases mem_mapSet h with h' | h'
      · exact Or.inr ⟨router, h'⟩
      · exact Or.inl h'

theorem registerAll_inv (settings : NetworkSettings)
    (rawCall : String → Except String String) :
    ∀ (cfgs : List X402ServiceConfig) (init : List (String × X402Service)),
      (∀ q ∈ init, q.2.usdcAddress = settings.usdcAddress ∧
        q.2.chainId = settings.chainId) →
      ∀ p ∈ cfgs.foldl
          (fun services cfg => (addService settings rawCall services cfg).services)
          init,
        p.2.usdcAddress = settings.usdcAddress ∧
          p.2.chainId = settings.chainId := by
  intro cfgs
  induction cfgs with
  | nil =>
    intro init hinit p hp
    exact hinit p hp
  | cons cfg rest ih =>
    intro init hinit p hp
    rw [List.foldl_cons] at hp
    refine ih _ ?_ p hp
    intro q hq
    rcases mem_addService_services hq with h' | ⟨router, rfl⟩
    · exact hinit q h'
    · exact ⟨rfl, rfl⟩

/-- **C7.** (1) After every sequence of registrations against a fresh
registry, every stored record carries the resolved network's
`usdcAddress` and `chainId` — never caller-supplied values; (2) a
registration whose required fields are present and whose router read
succeeds returns success even when the id is already present (no
duplicate-detection error), and the record subsequently found under the
id is exactly the one built from the new config (full replacement, last
write wins). -/
theorem registry_network_fields_and_overwrite :
    (∀ (settings : NetworkSettings) (rawCall : String → Except String String)
        (cfgs : List X402ServiceConfig) (p : String × X402Service),
      p ∈ registerAll settings rawCall cfgs →
      p.2.usdcAddress = settings.usdcAddress ∧ p.2.chainId = settings.chainId) ∧
    (∀ (settings : NetworkSettings) (rawCall : String → Except String String)
        (services : List (String × X402Service)) (cfg : X402ServiceConfig)
        (router : String),
      requiredMissing cfg = [] →
      getSettlementRouter rawCall (cfg.hookAddress.getD "") = .ok router →
      (addService settings rawCall services cfg).result = .ok () ∧
      getService (addService settings rawCall services cfg).services
          (cfg.id.getD "") = some (mkService settings cfg router)) := by
  constructor
  · intro settings rawCall cfgs p hp
    exact registerAll_inv settings rawCall cfgs [] (by simp) p hp
  · intro settings rawCall services cfg router hm hr
    have hout : addService settings rawCall services cfg =
        { services := mapSet services (cfg.id.getD "")
            (mkService settings cfg router),
          result := .ok (), ledgerReads := [cfg.hookAddress.getD ""] } := by
      unfold addService
      rw [if_neg (by simp [hm]), hr]
    rw [hout]
    exact ⟨rfl, mapGet_mapSet services (cfg.id.getD "") (mkService settings cfg router)⟩

/-- Concrete instantiation of the network-fields/overwrite theorem: a
registration over an existing id succeeds; the stored record's
`usdcAddress` and `chainId` come from `settings0`, not from the
adversarial extra config properties; the lookup returns the full new
record. -/
theorem registry_network_fields_and_overwrite_witness :
    ((("nft-mint", mkService settings0 cfgFull "0xrouter") :
        String × X402Service).2.usdcAddress = settings0.usdcAddress ∧
      (("nft-mint", mkService settings0 cfgFull "0xrouter") :
        String × X402Service).2.chainId = settings0.chainId) ∧
    ((addService settings0 rawCallOk [("nft-mint", svc0)] cfgFull).result =
        .ok () ∧
      getService (addService settings0 rawCallOk [("nft-mint", svc0)] cfgFull).services
          "nft-mint" = some (mkService settings0 cfgFull "0xrouter")) := by
  constructor
  · refine registry_network_fields_and_overwrite.1 settings0 rawCallOk [cfgFull]
      ("nft-mint", mkService settings0 cfgFull "0xrouter") ?_
    have hreg : registerAll settings0 rawCallOk [cfgFull] =
        [("nft-mint", mkService settings0 cfgFull "0xrouter")] := rfl
    rw [hreg]
    exact List.mem_singleton.mpr rfl
  · exact registry_network_fields_and_overwrite.2 settings0 rawCallOk
      [("nft-mint", svc0)] cfgFull "0xrouter" rfl rfl

/-- **C10.** A successful registration under an id already present
replaces the record in place: the key sequence — and hence the order in
which `listServices` enumerates records — is unchanged, while the
lookup yields the new record; a fresh id is appended at the end, so the
listing order is first-registration order. -/
theorem listServices_first_registration_order :
    ∀ (settings : NetworkSettings) (rawCall : String → Except String String)
      (services : List (String × X402Service)) (cfg : X402ServiceConfig)
      (router : String),
      requiredMissing cfg = [] →
      getSettlementRouter rawCall (cfg.hookAddress.getD "") = .ok router →
      ((cfg.id.getD "") ∈ services.map Prod.fst →
        (addService settings rawCall services cfg).services.map Prod.fst =
            services.map Prod.fst ∧
          getService (addService settings rawCall services cfg).services
              (cfg.id.getD "") = some (mkService settings cfg router)) ∧
      ((cfg.id.getD "") ∉ services.map Prod.fst →
        listServices (addService settings rawCall services cfg).services =
          listServices services ++ [mkService settings cfg router]) := by
  intro settings rawCall services cfg router hm hr
  have hout : addService settings rawCall services cfg =
      { services := mapSet services (cfg.id.getD "")
          (mkService settings cfg router),
        result := .ok (), ledgerReads := [cfg.hookAddress.getD ""] } := by
    unfold addService
    rw [if_neg (by simp [hm]), hr]
  constructor
  · intro hmem
    rw [hout]
    exact ⟨mapSet_keys_of_mem hmem,
      mapGet_mapSet services (cfg.id.getD "") (mkService settings cfg router)⟩
  · intro hmem
    rw [hout]
    show listServices (mapSet services (cfg.id.getD "")
      (mkService settings cfg router)) = _
    rw [mapSet_append_of_not_mem hmem]
    simp [listServices]

/-- Concrete instantiation of the listing-order theorem: re-registering
the first of two stored ids keeps the key order `["nft-mint",
"other"]`; it is not moved to the end. -/
theorem listServices_first_registration_order_witness :
    (addService settings0 rawCallOk [("nft-mint", svc0), ("other", svc0)]
        cfgFull).services.map Prod.fst = ["nft-mint", "other"] ∧
    getService (addService settings0 rawCallOk
        [("nft-mint", svc0), ("other", svc0)] cfgFull).services "nft-mint" =
      some (mkService settings0 cfgFull "0xrouter") := by
  have h := (listServices_first_registration_order settings0 rawCallOk
    [("nft-mint", svc0), ("other", svc0)] cfgFull "0xrouter" rfl rfl).1
    (by decide)
  refine ⟨?_, h.2⟩
  rw [h.1]
  rfl
